import Mathlib

/-!
Verification of the guard-and-policy pipeline of the llmsec-demo repository.

The development shallowly embeds the Python modules
`api/tools/action_runner.py`, `api/security/policy.py`,
`api/security/output_guard.py` and `api/security/filters.py`.
Python dictionaries are modelled as association lists in insertion
order, Python values (the JSON-equivalent sum) as the inductive
`Value`, machine floats as rationals, and fallible operations
(`json.loads`, `json.dumps`) as `Option`-returning functions.
-/

/-- Keys of a Python dictionary.  JSON object keys are always strings;
the `other` constructor stands for any non-string (hashable) Python key
and carries the name of its type, which is all `validate_payload`
inspects about such a key. -/
inductive PyKey where
  | str (s : String)
  | other (tn : String)
deriving DecidableEq

/-- Python values of the JSON-equivalent shape handled by the pipeline:
strings, ints, floats (modelled as rationals), booleans, `None`, lists,
dicts, plus `other` for a value of any unsupported Python type (carrying
the type name, which is all the code inspects about it). -/
inductive Value where
  | str (s : String)
  | int (n : Int)
  | float (q : Rat)
  | bool (b : Bool)
  | null
  | list (xs : List Value)
  | dict (es : List (PyKey × Value))
  | other (tn : String)

/-- A Python dict payload: an association list in insertion order. -/
abbrev PyDict := List (PyKey × Value)

/-- Membership test `s in payload` for a Python dict with string key. -/
def hasKeyStr (es : PyDict) (s : String) : Bool :=
  es.any (fun e => e.1 == PyKey.str s)

/-- Lookup `payload.get(s)` returning the first binding of key `s`. -/
def dictGet (es : PyDict) (s : String) : Option Value :=
  (es.find? (fun e => e.1 == PyKey.str s)).map Prod.snd

/-- Association-list lookup used for the `ALLOWED_ACTIONS` table. -/
def lookupStr {α : Type} : List (String × α) → String → Option α
  | [], _ => none
  | (k, v) :: rest, s => if k == s then some v else lookupStr rest s

/-- Python `repr` of a string (single quotes; the simple case used by
the demo, where tool and field names contain no quote characters). -/
def pyQuote (s : String) : String := "\x27" ++ s ++ "\x27"

/-- Python `repr`/f-string rendering of a list of strings,
`["a", "b"] ↦ "[\x27a\x27, \x27b\x27]"`. -/
def pyReprStrList (ss : List String) : String :=
  "[" ++ String.intercalate ", " (ss.map pyQuote) ++ "]"

/-- Rendering of a Python float for interpolation into messages
(decimal point form for integral values, fraction form otherwise). -/
def pyFloatStr (q : Rat) : String :=
  if q.den = 1 then toString q.num ++ ".0" else toString q

/-- Python `repr` of a dict key. -/
def pyReprKey : PyKey → String
  | .str s => pyQuote s
  | .other tn => "<" ++ tn ++ ">"

mutual
/-- Python `repr` of a `Value` (used inside `str` of lists/dicts). -/
def pyReprOf : Value → String
  | .str s => pyQuote s
  | .int n => toString n
  | .float q => pyFloatStr q
  | .bool b => if b then "True" else "False"
  | .null => "None"
  | .list xs => "[" ++ pyReprList xs ++ "]"
  | .dict es => "\x7b" ++ pyReprEntries es ++ "\x7d"
  | .other tn => "<" ++ tn ++ ">"

/-- Comma-joined `repr` of list elements. -/
def pyReprList : List Value → String
  | [] => ""
  | [v] => pyReprOf v
  | v :: rest => pyReprOf v ++ ", " ++ pyReprList rest

/-- Comma-joined `repr` of dict entries. -/
def pyReprEntries : List (PyKey × Value) → String
  | [] => ""
  | [(k, v)] => pyReprKey k ++ ": " ++ pyReprOf v
  | (k, v) :: rest => pyReprKey k ++ ": " ++ pyReprOf v ++ ", " ++ pyReprEntries rest
end

/-- Python `str()` of a `Value`, as used in f-string interpolation. -/
def pyStrOf : Value → String
  | .str s => s
  | v => pyReprOf v

/-- Result dictionary returned by `ActionRunner.execute_vuln` and
`ActionRunner.execute_defended`.  Each optional field models a key that
is present only in some of the returned dicts; the (wall-clock) `log`
entry of the source is not modelled.  -/
structure RunResult where
  status : String
  action : String
  reason : Option String := none
  message : Option String := none
  resultText : Option String := none
  payloadEcho : Option PyDict := none
  allowedActs : Option (List String) := none
  requiredFields : Option (List String) := none
  ticketId : Option String := none
  meetingId : Option String := none
  warning : Option String := none
  sanitizedFlag : Bool := false

namespace ActionRunner

/-- Allowed actions and their required fields
(`ActionRunner.ALLOWED_ACTIONS`). -/
def ALLOWED_ACTIONS : List (String × List String) :=
  [("send_email", ["to", "subject", "body"]),
   ("create_ticket", ["title", "description", "priority"]),
   ("schedule_meeting", ["attendees", "time", "duration"]),
   ("update_status", ["resource_id", "status"]),
   ("send_notification", ["user_id", "message"])]

/-- Actions that require user confirmation
(`ActionRunner.DANGEROUS_ACTIONS`). -/
def DANGEROUS_ACTIONS : List String :=
  ["send_email", "create_ticket", "schedule_meeting"]

/-- Vulnerable executor (`ActionRunner.execute_vuln`): executes every
action, including unknown ones, without validation. -/
def execute_vuln (action : String) (payload : PyDict) : RunResult :=
  let warn := "No validation performed - vulnerable to injection"
  if action == "send_email" then
    { status := "executed", action := action,
      resultText := some ("[SIMULATED] Email sent to " ++
        pyStrOf ((dictGet payload "to").getD (.str "unknown"))),
      warning := some warn }
  else if action == "create_ticket" then
    { status := "executed", action := action,
      resultText := some ("[SIMULATED] Ticket created: " ++
        pyStrOf ((dictGet payload "title").getD (.str "Untitled"))),
      ticketId := some "TICK-12345", warning := some warn }
  else if action == "schedule_meeting" then
    { status := "executed", action := action,
      resultText := some ("[SIMULATED] Meeting scheduled with " ++
        pyStrOf ((dictGet payload "attendees").getD (.list []))),
      meetingId := some "MEET-67890", warning := some warn }
  else if action == "update_status" then
    { status := "executed", action := action,
      resultText := some ("[SIMULATED] Status updated for " ++
        pyStrOf ((dictGet payload "resource_id").getD (.str "unknown"))),
      warning := some warn }
  else if action == "send_notification" then
    { status := "executed", action := action,
      resultText := some ("[SIMULATED] Notification sent to " ++
        pyStrOf ((dictGet payload "user_id").getD (.str "unknown"))),
      warning := some warn }
  else
    { status := "executed", action := action,
      resultText := some ("[SIMULATED] Unknown action \x27" ++ action ++
        "\x27 executed anyway"),
      warning := some "CRITICAL: Unknown action executed without validation!" }

/-- Required fields of `required` that are absent from the payload,
`[f for f in required_fields if f not in payload]`. -/
def missingFields (required : List String) (payload : PyDict) : List String :=
  required.filter (fun f => !(hasKeyStr payload f))

/-- Number of attendees reported by the defended `schedule_meeting`
branch: a list value counts its items, a missing value counts zero,
any other value is wrapped in a singleton list. -/
def attendeeCount (payload : PyDict) : Nat :=
  match dictGet payload "attendees" with
  | some (.list xs) => xs.length
  | some _ => 1
  | none => 0

/-- Defended executor (`ActionRunner.execute_defended`): allowlist
check, required-field check, confirmation gate, then per-action
simulated execution; the final branch models the
"Should never reach here" fallback of the source. -/
def execute_defended (action : String) (payload : PyDict)
    (user_confirmed : Bool) : RunResult :=
  match lookupStr ALLOWED_ACTIONS action with
  | none =>
    { status := "blocked", action := action,
      reason := some "action_not_allowed",
      message := some ("Action \x27" ++ action ++ "\x27 is not in the allowlist"),
      allowedActs := some (ALLOWED_ACTIONS.map Prod.fst) }
  | some required =>
    if !(missingFields required payload).isEmpty then
      { status := "blocked", action := action,
        reason := some "invalid_payload",
        message := some ("Missing required fields: " ++
          pyReprStrList (missingFields required payload)),
        requiredFields := some required }
    else if DANGEROUS_ACTIONS.contains action && !user_confirmed then
      { status := "pending_confirmation", action := action,
        reason := some "user_confirmation_required",
        message := some ("Action \x27" ++ action ++
          "\x27 requires explicit user confirmation"),
        payloadEcho := some payload }
    else if action == "send_email" then
      { status := "executed", action := action,
        resultText := some ("[SIMULATED] Validated email sent to " ++
          (pyStrOf ((dictGet payload "to").getD (.str ""))).take 100),
        sanitizedFlag := true }
    else if action == "create_ticket" then
      { status := "executed", action := action,
        resultText := some ("[SIMULATED] Validated ticket created: " ++
          (pyStrOf ((dictGet payload "title").getD (.str ""))).take 100),
        ticketId := some "TICK-SAFE-12345", sanitizedFlag := true }
    else if action == "schedule_meeting" then
      { status := "executed", action := action,
        resultText := some ("[SIMULATED] Validated meeting scheduled with " ++
          toString (attendeeCount payload) ++ " attendee(s)"),
        meetingId := some "MEET-SAFE-67890", sanitizedFlag := true }
    else if action == "update_status" then
      { status := "executed", action := action,
        resultText := some ("[SIMULATED] Status updated for " ++
          (pyStrOf ((dictGet payload "resource_id").getD (.str ""))).take 50 ++
          " to " ++ (pyStrOf ((dictGet payload "status").getD (.str ""))).take 50),
        sanitizedFlag := true }
    else if action == "send_notification" then
      { status := "executed", action := action,
        resultText := some ("[SIMULATED] Notification sent to " ++
          (pyStrOf ((dictGet payload "user_id").getD (.str ""))).take 50),
        sanitizedFlag := true }
    else
      { status := "error", action := action,
        reason := some "internal_error",
        message := some "Unexpected execution path" }

end ActionRunner

/-- Test whether `needle` is a leading segment of `hay`. -/
def leadsWith : List Char → List Char → Bool
  | [], _ => true
  | _ :: _, [] => false
  | n :: ns, h :: hs => n == h && leadsWith ns hs

/-- Substring test on character lists. -/
def hasSub (needle : List Char) : List Char → Bool
  | [] => needle.isEmpty
  | c :: rest => leadsWith needle (c :: rest) || hasSub needle rest

/-- Substring test on strings, `needle in hay` in Python. -/
def hasSubstr (needle hay : String) : Bool :=
  hasSub needle.toList hay.toList

/-- ASCII lowering of a string, Python `str.lower()` on the ASCII
fragment used by the policy patterns. -/
def strLower (s : String) : String :=
  String.mk (s.toList.map Char.toLower)

/-- Four-digit hexadecimal rendering used by JSON `\u` escapes. -/
def hex4 (n : Nat) : String :=
  String.mk ([Nat.digitChar (n / 4096 % 16), Nat.digitChar (n / 256 % 16),
              Nat.digitChar (n / 16 % 16), Nat.digitChar (n % 16)])

/-- Escaping of one character inside a JSON string literal as done by
`json.dumps` with its default `ensure_ascii=True`. -/
def jsonEscapeChar (c : Char) : String :=
  if c == '"' then "\\\""
  else if c == '\\' then "\\\\"
  else if c == '\n' then "\\n"
  else if c == '\t' then "\\t"
  else if c == '\r' then "\\r"
  else if c.toNat == 8 then "\\b"
  else if c.toNat == 12 then "\\f"
  else if c.toNat < 32 || c.toNat > 126 then "\\u" ++ hex4 c.toNat
  else String.singleton c

/-- JSON string literal for `s` (`json.dumps` of a Python string;
characters beyond the basic plane are approximated by a single
`\u` escape). -/
def jsonQuote (s : String) : String :=
  "\"" ++ String.join (s.toList.map jsonEscapeChar) ++ "\""

mutual
/-- Serialization `json.dumps(v)` with default separators; `none`
models the `TypeError` raised on an unserializable value.  Floats are
rendered through `pyFloatStr`, a benign approximation of `repr`. -/
def dumpVal : Value → Option String
  | .str s => some (jsonQuote s)
  | .int n => some (toString n)
  | .float q => some (pyFloatStr q)
  | .bool b => some (if b then "true" else "false")
  | .null => some "null"
  | .list xs => (dumpList xs).map (fun s => "[" ++ s ++ "]")
  | .dict es => (dumpEntries es).map (fun s => "\x7b" ++ s ++ "\x7d")
  | .other _ => none

/-- Comma-joined serialization of list items. -/
def dumpList : List Value → Option String
  | [] => some ""
  | [v] => dumpVal v
  | v :: rest =>
    match dumpVal v, dumpList rest with
    | some a, some b => some (a ++ ", " ++ b)
    | _, _ => none

/-- Comma-joined serialization of dict entries; a non-string key is
treated as unserializable. -/
def dumpEntries : List (PyKey × Value) → Option String
  | [] => some ""
  | [(PyKey.str k, v)] => (dumpVal v).map (fun s => jsonQuote k ++ ": " ++ s)
  | (PyKey.str k, v) :: rest =>
    match dumpVal v, dumpEntries rest with
    | some a, some b => some (jsonQuote k ++ ": " ++ a ++ ", " ++ b)
    | _, _ => none
  | (PyKey.other _, _) :: _ => none
end

/-- Suspicious-substring table of `ToolPolicy._contains_suspicious_args`,
category by category in declaration order. -/
def suspiciousCategories : List (String × List String) :=
  [("sql_injection", ["drop table", "delete from", "union select", "\x27; --"]),
   ("path_traversal", ["../", "..\\", "/etc/passwd"]),
   ("code_execution", ["exec(", "eval(", "__import__", "subprocess"]),
   ("command_injection", ["; rm -rf", "| cat", "&& curl"])]

/-- First suspicious pattern of one category found in the lowered
serialized arguments. -/
def scanPats (cat : String) (lowered : String) : List String → Option String
  | [] => none
  | p :: rest =>
    if hasSubstr p lowered then some (cat ++ ": \x27" ++ p ++ "\x27")
    else scanPats cat lowered rest

/-- First suspicious pattern over all categories in declaration order. -/
def scanCats (lowered : String) : List (String × List String) → Option String
  | [] => none
  | (cat, pats) :: rest =>
    match scanPats cat lowered pats with
    | some r => some r
    | none => scanCats lowered rest

/-- Model of `ToolPolicy._contains_suspicious_args`: serialize the
arguments, lower them, scan for the fixed pattern set.  The outer
`none` models the exception raised when serialization fails. -/
def contains_suspicious_args (args : PyDict) : Option (Option String) :=
  (dumpVal (.dict args)).map (fun s => scanCats (strLower s) suspiciousCategories)

/-- Policy configuration of `ToolPolicy.__init__`: the allowlist and
the set of tools that require user confirmation. -/
structure ToolPolicy where
  allowed_tools : List String
  require_user_confirm : List String

/-- Python truthiness of a value, `bool(v)`. -/
def pyTruthy : Value → Bool
  | .str s => !(s == "")
  | .int n => !(n == 0)
  | .float q => !(q == 0)
  | .bool b => b
  | .null => false
  | .list xs => !xs.isEmpty
  | .dict es => !es.isEmpty
  | .other _ => true

/-- Python `type(v).__name__`. -/
def typeName : Value → String
  | .str _ => "str"
  | .int _ => "int"
  | .float _ => "float"
  | .bool _ => "bool"
  | .null => "NoneType"
  | .list _ => "list"
  | .dict _ => "dict"
  | .other tn => tn

/-- Numeric test `isinstance(v, (int, float))`; a Python bool is a
subclass of int and therefore counts as numeric. -/
def isNumberLike : Value → Bool
  | .int _ => true
  | .float _ => true
  | .bool _ => true
  | _ => false

/-- Numeric magnitude of an int, float or bool value
(`True == 1`, `False == 0`). -/
def amountVal : Value → Rat
  | .int n => (n : Rat)
  | .float q => q
  | .bool b => if b then 1 else 0
  | _ => 0

/-- Python `str()` of an optional lookup result, where a missing value
prints as `None`. -/
def pyStrOpt : Option Value → String
  | none => "None"
  | some v => pyStrOf v

/-- Amount block of `ToolPolicy._validate_tool_specific`: missing or
`None` amount, non-numeric amount, non-positive amount, amount above
10000, checked in source order; `none` when the amount is acceptable. -/
def paymentAmountGate (args : PyDict) : Option String :=
  match dictGet args "amount" with
  | none => some "Missing required \x27amount\x27 parameter"
  | some Value.null => some "Missing required \x27amount\x27 parameter"
  | some amount =>
    if !(isNumberLike amount) then
      some ("Invalid amount type: " ++ typeName amount)
    else if amountVal amount ≤ 0 then
      some ("Amount must be positive: " ++ pyStrOf amount)
    else if amountVal amount > 10000 then
      some ("Amount exceeds maximum (10000): " ++ pyStrOf amount)
    else none

/-- Action block of `ToolPolicy._validate_tool_specific`:
`args.get("action") not in ["charge", "refund"]` rejects. -/
def paymentActionGate (args : PyDict) : Option String :=
  match dictGet args "action" with
  | some (Value.str s) =>
    if s == "charge" || s == "refund" then none
    else some ("Invalid action: " ++ s)
  | v => some ("Invalid action: " ++ pyStrOpt v)

/-- User block of `ToolPolicy._validate_tool_specific`:
`not user_id or not isinstance(user_id, str)` rejects, so only a
non-empty string passes. -/
def paymentUserGate (args : PyDict) : Option String :=
  match dictGet args "user_id" with
  | some (Value.str u) =>
    if u == "" then some "Missing or invalid user_id" else none
  | _ => some "Missing or invalid user_id"

/-- Model of `ToolPolicy._validate_tool_specific`: the payment-shaped
business rules in source order (amount block, action block, user
block), each an early return with the source reason string. -/
def validate_tool_specific (tool_name : String) (args : PyDict) :
    Bool × Option String :=
  if tool_name == "payment_tool" then
    match paymentAmountGate args with
    | some m => (false, some m)
    | none =>
      match paymentActionGate args with
      | some m => (false, some m)
      | none =>
        match paymentUserGate args with
        | some m => (false, some m)
        | none => (true, none)
  else (true, none)

/-- Model of `ToolPolicy.validate_tool_call`: allowlist, suspicious
arguments, confirmation gate, then tool-specific rules.  The outer
`none` models an uncaught serialization exception; the source otherwise
returns the pair `(is_allowed, reason_if_blocked)`. -/
def validate_tool_call (pol : ToolPolicy) (tool_name : String)
    (args : PyDict) (ctx : PyDict) : Option (Bool × Option String) :=
  if !(pol.allowed_tools.contains tool_name) then
    some (false, some ("Tool \x27" ++ tool_name ++ "\x27 not in allowed list: " ++
      pyReprStrList pol.allowed_tools))
  else
    match contains_suspicious_args args with
    | none => none
    | some (some pat) =>
      some (false, some ("Tool arguments contain suspicious pattern: " ++ pat))
    | some none =>
      if pol.require_user_confirm.contains tool_name &&
          !(pyTruthy ((dictGet ctx "user_confirmed").getD (.bool false))) then
        some (false, some ("Tool \x27" ++ tool_name ++ "\x27 requires user confirmation"))
      else
        match validate_tool_specific tool_name args with
        | (false, reason) => some (false, reason)
        | (true, _) => some (true, none)

/-- Backtick character, used by the command-substitution pattern. -/
def btChar : Char := Char.ofNat 96

/-- Opening brace character. -/
def obChar : Char := Char.ofNat 123

/-- Closing brace character. -/
def cbChar : Char := Char.ofNat 125

/-- Python regex whitespace class over the ASCII range. -/
def isPyWs (c : Char) : Bool :=
  c == ' ' || c == '\t' || c == '\n' || c == '\r' ||
    c.toNat == 11 || c.toNat == 12

/-- Search for the closing character with no intervening newline
(the regex `.` of the source patterns does not cross lines). -/
def seekCloseNoNl (cl : Char) : List Char → Bool
  | [] => false
  | c :: rest =>
    if c == '\n' then false
    else if c == cl then true
    else seekCloseNoNl cl rest

/-- Search for an opener sequence followed, on the same line, by the
closing character: the shape of the patterns for template injection
and command substitution. -/
def openCloseScan (op : List Char) (cl : Char) : List Char → Bool
  | [] => false
  | c :: rest =>
    (leadsWith op (c :: rest) && seekCloseNoNl cl (List.drop op.length (c :: rest)))
      || openCloseScan op cl rest

/-- Whether the next character exists and is regex whitespace. -/
def headIsWs : List Char → Bool
  | [] => false
  | c :: _ => isPyWs c

/-- A destructive-command keyword (rm, del, drop, delete) followed by a
whitespace character, at the head of the input. -/
def kwThenWs (cs : List Char) : Bool :=
  (leadsWith "rm".toList cs && headIsWs (List.drop 2 cs)) ||
  (leadsWith "del".toList cs && headIsWs (List.drop 3 cs)) ||
  (leadsWith "drop".toList cs && headIsWs (List.drop 4 cs)) ||
  (leadsWith "delete".toList cs && headIsWs (List.drop 6 cs))

/-- Consume regex whitespace, then require a destructive-command
keyword followed by whitespace. -/
def afterWsKw : List Char → Bool
  | [] => false
  | c :: rest => if isPyWs c then afterWsKw rest else kwThenWs (c :: rest)

/-- Pattern `;\s*(rm|del|drop|delete)\s` anywhere in the input. -/
def cmdKwScan : List Char → Bool
  | [] => false
  | c :: rest => (c == ';' && afterWsKw rest) || cmdKwScan rest

/-- Search for the literal `from` with no intervening newline. -/
def seekFromNoNl : List Char → Bool
  | [] => false
  | c :: rest =>
    if c == '\n' then false
    else leadsWith "from".toList (c :: rest) || seekFromNoNl rest

/-- An SQL keyword at the head of the input followed, on the same
line region, by `from`. -/
def sqlKwHere (cs : List Char) : Bool :=
  (leadsWith "union".toList cs && seekFromNoNl (List.drop 5 cs)) ||
  (leadsWith "select".toList cs && seekFromNoNl (List.drop 6 cs)) ||
  (leadsWith "insert".toList cs && seekFromNoNl (List.drop 6 cs)) ||
  (leadsWith "update".toList cs && seekFromNoNl (List.drop 6 cs)) ||
  (leadsWith "delete".toList cs && seekFromNoNl (List.drop 6 cs))

/-- Pattern `(union|select|insert|update|delete).*from` anywhere. -/
def sqlKwScan : List Char → Bool
  | [] => false
  | c :: rest => sqlKwHere (c :: rest) || sqlKwScan rest

/-- Suspicious-pattern scan of `validate_payload` over one string
value, case-insensitively: script tag, javascript scheme, template
injection, command substitution (two forms), destructive command after
a semicolon, SQL keyword before `from`. -/
def suspiciousValueStr (s : String) : Bool :=
  let low := s.toList.map Char.toLower
  hasSub "<script".toList low ||
  hasSub "javascript:".toList low ||
  openCloseScan ['$', obChar] cbChar low ||
  openCloseScan ['$', '('] ')' low ||
  openCloseScan [btChar] btChar low ||
  cmdKwScan low ||
  sqlKwScan low

/-- Core of the key regex `[a-zA-Z_][a-zA-Z0-9_]*` as a full match. -/
def keyCoreMatch : List Char → Bool
  | [] => false
  | c :: rest =>
    (c.isAlpha || c == '_') && rest.all (fun d => d.isAlphanum || d == '_')

/-- Model of `re.match(r'^[a-zA-Z_][a-zA-Z0-9_]*$', k)`: Python `$`
also matches just before one trailing newline, so a key ending in a
single newline is accepted by the source. -/
def pyKeyRegexMatch (s : String) : Bool :=
  keyCoreMatch s.toList ||
    (match s.toList.getLast? with
     | some c => c == '\n' && keyCoreMatch s.toList.dropLast
     | none => false)

/-- The string of a string key (placeholder for non-string keys, which
never reach the uses of this accessor). -/
def keyStr : PyKey → String
  | .str s => s
  | .other _ => ""

/-- Key checks of `validate_payload` in source order: string type,
length at most 50, regex match. -/
def keyCheck : PyKey → Option String
  | .other tn =>
    some ("Parameter key must be string, got <class \x27" ++ tn ++ "\x27>")
  | .str k =>
    if k.length > 50 then
      some ("Parameter key \x27" ++ k ++ "\x27 too long (max 50 chars)")
    else if !(pyKeyRegexMatch k) then
      some ("Invalid parameter name \x27" ++ k ++
        "\x27 (use alphanumeric and underscore only)")
    else none

/-- First over-long string item of a list value, in order (the loop of
the source checks items before the list length). -/
def firstLongItem (k : String) : List Value → Option String
  | [] => none
  | Value.str s :: rest =>
    if s.length > 500 then some ("List item in \x27" ++ k ++ "\x27 too long")
    else firstLongItem k rest
  | _ :: rest => firstLongItem k rest

mutual
/-- Value checks of `validate_payload` for the binding of key `k`:
string length and suspicious-pattern scan for strings, recursive
validation for dicts, item and length checks for lists, type check
otherwise; `none` when the value is acceptable. -/
def valueCheck (action k : String) : Value → Option String
  | .str s =>
    if s.length > 5000 then
      some ("Parameter \x27" ++ k ++ "\x27 value too long (max 5000 chars)")
    else if suspiciousValueStr s then
      some ("Suspicious pattern detected in parameter \x27" ++ k ++ "\x27")
    else none
  | .dict es =>
    match (if es.length > 20 then
            ((false : Bool), some "Too many parameters (max 20)")
          else validateEntries action es) with
    | (true, _) => none
    | (false, m) =>
      some ("Invalid nested payload in \x27" ++ k ++ "\x27: " ++ m.getD "None")
  | .list xs =>
    match firstLongItem k xs with
    | some m => some m
    | none =>
      if xs.length > 100 then
        some ("List \x27" ++ k ++ "\x27 too long (max 100 items)")
      else none
  | .int _ => none
  | .float _ => none
  | .bool _ => none
  | .null => none
  | .other tn =>
    some ("Parameter \x27" ++ k ++ "\x27 has unsupported type <class \x27" ++
      tn ++ "\x27>")

/-- The parameter loop of `validate_payload`: key checks then value
checks for each binding, early-returning the first failure. -/
def validateEntries (action : String) : List (PyKey × Value) → Bool × Option String
  | [] => (true, none)
  | (k, v) :: rest =>
    match keyCheck k with
    | some m => (false, some m)
    | none =>
      match valueCheck action (keyStr k) v with
      | some m => (false, some m)
      | none => validateEntries action rest
end

/-- Model of `validate_payload`: dictionary type check, size bound,
then the parameter loop. -/
def validate_payload (action : String) : Value → Bool × Option String
  | .dict es =>
    if es.length > 20 then (false, some "Too many parameters (max 20)")
    else validateEntries action es
  | _ => (false, some "Payload must be a dictionary")

/-- Specification predicate for keys, following the claim amended by
the source regex semantics (a single trailing newline is tolerated). -/
def keyOkSpec : PyKey → Bool
  | .str k => k.length ≤ 50 && pyKeyRegexMatch k
  | .other _ => false

mutual
/-- Specification predicate: the value is within the size and shape
limits (strings at most 5000 characters, lists at most 100 items with
string items at most 500 characters, nested mappings recursively
within limits, only supported types). -/
def valueWithinLimits : Value → Bool
  | .str s => s.length ≤ 5000
  | .list xs => itemsWithinLimits xs && xs.length ≤ 100
  | .dict es => es.length ≤ 20 && entriesWithinLimits es
  | .int _ => true
  | .float _ => true
  | .bool _ => true
  | .null => true
  | .other _ => false

/-- Specification predicate: all string items of a list value are at
most 500 characters. -/
def itemsWithinLimits : List Value → Bool
  | [] => true
  | Value.str s :: rest => s.length ≤ 500 && itemsWithinLimits rest
  | _ :: rest => itemsWithinLimits rest

/-- Specification predicate: every binding has an acceptable key and a
value within limits. -/
def entriesWithinLimits : List (PyKey × Value) → Bool
  | [] => true
  | (k, v) :: rest =>
    keyOkSpec k && valueWithinLimits v && entriesWithinLimits rest
end

/-- Specification predicate: the payload has at most 20 keys and all
of its bindings are within limits. -/
def payloadWithinLimits (es : PyDict) : Bool :=
  es.length ≤ 20 && entriesWithinLimits es

mutual
/-- Specification predicate: no string value of the payload (reached
through mapping values; the source does not scan items of lists)
matches the suspicious-pattern set. -/
def valueNoSusp : Value → Bool
  | .str s => !(suspiciousValueStr s)
  | .dict es => entriesNoSusp es
  | _ => true

/-- Specification predicate: no binding carries a suspicious string. -/
def entriesNoSusp : List (PyKey × Value) → Bool
  | [] => true
  | (_, v) :: rest => valueNoSusp v && entriesNoSusp rest
end

/-- Specification predicate: the payload carries no suspicious string
value. -/
def payloadNoSuspicious (es : PyDict) : Bool := entriesNoSusp es

/-- Payload nested `n` mappings deep, each level one binding. -/
def deepNest : Nat → Value
  | 0 => .str "leaf"
  | n + 1 => .dict [(.str "k", deepNest n)]

/-- Regex word character `\w` over the ASCII range. -/
def isWordChar (c : Char) : Bool := c.isAlphanum || c == '_'

/-- Greedy span of word characters, the `\w+` group of the directive
pattern. -/
def wordSpan : List Char → List Char × List Char
  | [] => ([], [])
  | c :: rest =>
    if isWordChar c then
      let (w, r) := wordSpan rest
      (c :: w, r)
    else ([], c :: rest)

/-- Non-greedy scan of `.*?` up to the first closing brace followed by
a closing parenthesis, returning the consumed interior and the text
after the parenthesis. -/
def braceScan : List Char → Option (List Char × List Char)
  | c :: d :: rest =>
    if c == cbChar && d == ')' then some ([], rest)
    else (braceScan (d :: rest)).map (fun p => (c :: p.1, p.2))
  | _ => none

/-- Attempt of the pattern `RUN:(\w+)\((\{.*?\})\)` anchored at the
head of the input; on success returns the action name, the payload
text with its braces, and the remaining text. -/
def matchRunAt : List Char → Option (String × String × List Char)
  | 'R' :: 'U' :: 'N' :: ':' :: rest =>
    match wordSpan rest with
    | ([], _) => none
    | (w, r1) =>
      match r1 with
      | '(' :: c :: r2 =>
        if c == obChar then
          match braceScan r2 with
          | some (mid, tail) =>
            some (String.mk w, String.mk (obChar :: (mid ++ [cbChar])), tail)
          | none => none
        else none
      | _ => none
  | _ => none

/-- Leftmost search of the directive pattern, carrying the absolute
position of the match start. -/
def searchRun : Nat → List Char → Option (Nat × String × String × List Char)
  | _, [] => none
  | pos, c :: rest =>
    match matchRunAt (c :: rest) with
    | some (a, p, r) => some (pos, a, p, r)
    | none => searchRun (pos + 1) rest

/-- JSON whitespace skipping. -/
def jsonSkipWs : List Char → List Char
  | [] => []
  | c :: rest =>
    if c == ' ' || c == '\t' || c == '\n' || c == '\r' then jsonSkipWs rest
    else c :: rest

/-- Value of one hexadecimal digit. -/
def hexVal (c : Char) : Option Nat :=
  if '0' ≤ c && c ≤ '9' then some (c.toNat - 48)
  else if 'a' ≤ c && c ≤ 'f' then some (c.toNat - 87)
  else if 'A' ≤ c && c ≤ 'F' then some (c.toNat - 70)
  else none

/-- Body of a JSON string after the opening quote: handles the escape
sequences of the grammar and rejects raw control characters (strict
mode of `json.loads`); returns the decoded content and the remainder
after the closing quote. -/
def jsonStringBody : List Char → Option (List Char × List Char)
  | [] => none
  | c :: rest =>
    if c == '"' then some ([], rest)
    else if c == '\\' then
      match rest with
      | '"' :: r => (jsonStringBody r).map (fun p => ('"' :: p.1, p.2))
      | '\\' :: r => (jsonStringBody r).map (fun p => ('\\' :: p.1, p.2))
      | '/' :: r => (jsonStringBody r).map (fun p => ('/' :: p.1, p.2))
      | 'b' :: r => (jsonStringBody r).map (fun p => (Char.ofNat 8 :: p.1, p.2))
      | 'f' :: r => (jsonStringBody r).map (fun p => (Char.ofNat 12 :: p.1, p.2))
      | 'n' :: r => (jsonStringBody r).map (fun p => ('\n' :: p.1, p.2))
      | 'r' :: r => (jsonStringBody r).map (fun p => ('\r' :: p.1, p.2))
      | 't' :: r => (jsonStringBody r).map (fun p => ('\t' :: p.1, p.2))
      | 'u' :: h1 :: h2 :: h3 :: h4 :: r =>
        match hexVal h1, hexVal h2, hexVal h3, hexVal h4 with
        | some a, some b, some c2, some d =>
          (jsonStringBody r).map
            (fun p => (Char.ofNat (a * 4096 + b * 256 + c2 * 16 + d) :: p.1, p.2))
        | _, _, _, _ => none
      | _ => none
    else if c.toNat < 32 then none
    else (jsonStringBody rest).map (fun p => (c :: p.1, p.2))

/-- Greedy span of decimal digits. -/
def digitSpan : List Char → List Char × List Char
  | [] => ([], [])
  | c :: rest =>
    if c.isDigit then
      let (d, r) := digitSpan rest
      (c :: d, r)
    else ([], c :: rest)

/-- Natural number denoted by a digit string. -/
def natOfDigits (ds : List Char) : Nat :=
  ds.foldl (fun a c => a * 10 + (c.toNat - 48)) 0

/-- JSON number at the head of the input, per the strict grammar
(`-?(0|[1-9][0-9]*)(.[0-9]+)?([eE][+-]?[0-9]+)?`): an int value when
neither fraction nor exponent is present, a float value otherwise. -/
def jsonNumber (cs : List Char) : Option (Value × List Char) :=
  let (neg, cs1) := match cs with
    | '-' :: r => (true, r)
    | _ => (false, cs)
  let ip : Option (Nat × List Char) := match cs1 with
    | '0' :: r => some (0, r)
    | c :: _ =>
      if c.isDigit then
        let (ds, r) := digitSpan cs1
        some (natOfDigits ds, r)
      else none
    | [] => none
  match ip with
  | none => none
  | some (intVal, r1) =>
    let fp : Option (Option (List Char) × List Char) := match r1 with
      | '.' :: r2 =>
        match digitSpan r2 with
        | ([], _) => none
        | (ds, r3) => some (some ds, r3)
      | _ => some (none, r1)
    match fp with
    | none => none
    | some (fracDs, r4) =>
      let ep : Option (Option Int × List Char) := match r4 with
        | 'e' :: r5 =>
          match r5 with
          | '+' :: r6 =>
            match digitSpan r6 with
            | ([], _) => none
            | (ds, r7) => some (some (natOfDigits ds : Int), r7)
          | '-' :: r6 =>
            match digitSpan r6 with
            | ([], _) => none
            | (ds, r7) => some (some (-(natOfDigits ds : Int)), r7)
          | _ =>
            match digitSpan r5 with
            | ([], _) => none
            | (ds, r7) => some (some (natOfDigits ds : Int), r7)
        | 'E' :: r5 =>
          match r5 with
          | '+' :: r6 =>
            match digitSpan r6 with
            | ([], _) => none
            | (ds, r7) => some (some (natOfDigits ds : Int), r7)
          | '-' :: r6 =>
            match digitSpan r6 with
            | ([], _) => none
            | (ds, r7) => some (some (-(natOfDigits ds : Int)), r7)
          | _ =>
            match digitSpan r5 with
            | ([], _) => none
            | (ds, r7) => some (some (natOfDigits ds : Int), r7)
        | _ => some (none, r4)
      match ep with
      | none => none
      | some (expo, r8) =>
        match fracDs, expo with
        | none, none =>
          some (.int (if neg then -(intVal : Int) else (intVal : Int)), r8)
        | _, _ =>
          let fds := fracDs.getD []
          let mant : Int := intVal * 10 ^ fds.length + natOfDigits fds
          let signed : Int := if neg then -mant else mant
          let e : Int := expo.getD 0 - fds.length
          let q : Rat :=
            if 0 ≤ e then (signed : Rat) * (10 : Rat) ^ e.toNat
            else (signed : Rat) / (10 : Rat) ^ (-e).toNat
          some (.float q, r8)

/-- Python dict insertion: an existing key keeps its position and gets
the new value, a fresh key is appended. -/
def dictInsert (es : PyDict) (k : String) (v : Value) : PyDict :=
  match es with
  | [] => [(.str k, v)]
  | (k0, v0) :: rest =>
    if k0 == PyKey.str k then (k0, v) :: rest
    else (k0, v0) :: dictInsert rest k v

mutual
/-- JSON value at the head of the input.  The fuel argument only bounds
nesting and is given large enough by the top-level entry point; every
recursive call strictly consumes it. -/
def jsonVal : Nat → List Char → Option (Value × List Char)
  | 0, _ => none
  | fuel + 1, cs =>
    match jsonSkipWs cs with
    | [] => none
    | c :: rest =>
      if c == '"' then
        (jsonStringBody rest).map (fun p => (Value.str (String.mk p.1), p.2))
      else if c == obChar then
        match jsonSkipWs rest with
        | d :: r2 =>
          if d == cbChar then some (.dict [], r2)
          else jsonMembers fuel (d :: r2) []
        | [] => none
      else if c == '[' then
        match jsonSkipWs rest with
        | ']' :: r2 => some (.list [], r2)
        | r2 => jsonItems fuel r2 []
      else if leadsWith "true".toList (c :: rest) then
        some (.bool true, List.drop 4 (c :: rest))
      else if leadsWith "false".toList (c :: rest) then
        some (.bool false, List.drop 5 (c :: rest))
      else if leadsWith "null".toList (c :: rest) then
        some (.null, List.drop 4 (c :: rest))
      else jsonNumber (c :: rest)

/-- Members of a JSON object after the opening brace (at least one
member expected). -/
def jsonMembers : Nat → List Char → PyDict → Option (Value × List Char)
  | 0, _, _ => none
  | fuel + 1, cs, acc =>
    match jsonSkipWs cs with
    | '"' :: rest =>
      match jsonStringBody rest with
      | some (kb, r1) =>
        match jsonSkipWs r1 with
        | ':' :: r2 =>
          match jsonVal fuel r2 with
          | some (v, r3) =>
            let acc2 := dictInsert acc (String.mk kb) v
            match jsonSkipWs r3 with
            | ',' :: r4 => jsonMembers fuel r4 acc2
            | d :: r4 => if d == cbChar then some (.dict acc2, r4) else none
            | [] => none
          | none => none
        | _ => none
      | none => none
    | _ => none

/-- Items of a JSON array after the opening bracket (at least one item
expected). -/
def jsonItems : Nat → List Char → List Value → Option (Value × List Char)
  | 0, _, _ => none
  | fuel + 1, cs, acc =>
    match jsonVal fuel cs with
    | some (v, r) =>
      match jsonSkipWs r with
      | ',' :: r2 => jsonItems fuel r2 (acc ++ [v])
      | ']' :: r2 => some (.list (acc ++ [v]), r2)
      | _ => none
    | none => none
end

/-- Model of `json.loads`: one JSON value spanning the whole input up
to trailing whitespace (the NaN and Infinity extensions of the Python
decoder are not modelled; no input in this development uses them). -/
def jsonLoads (s : String) : Option Value :=
  match jsonVal (2 * s.length + 2) s.toList with
  | some (v, rest) => if (jsonSkipWs rest).isEmpty then some v else none
  | none => none

/-- A parsed directive: action name, payload, matched text and (for
`extract_all_run_directives`) the match position. -/
structure Directive where
  action : String
  payload : Value
  raw_match : String
  pos : Option Nat := none

/-- Model of `parse_run_directive`: leftmost match of the directive
pattern, then JSON decoding of the payload; a decode failure discards
the whole call (returns `none`, never an error). -/
def parse_run_directive (output : String) : Option Directive :=
  match searchRun 0 output.toList with
  | none => none
  | some (_, a, p, _) =>
    match jsonLoads p with
    | some v =>
      some { action := a, payload := v,
             raw_match := "RUN:" ++ a ++ "(" ++ p ++ ")" }
    | none => none

/-- Scan loop of `extract_all_run_directives`: non-overlapping matches
in order, continuing after each match end, skipping candidates whose
payload fails to decode.  Fuel is given as the input length by the
entry point; every match consumes at least one character. -/
def extractAllGo : Nat → Nat → List Char → List Directive
  | 0, _, _ => []
  | fuel + 1, pos, cs =>
    match searchRun pos cs with
    | none => []
    | some (mpos, a, p, rest) =>
      let nextPos := mpos + 4 + a.length + 1 + p.length + 1
      match jsonLoads p with
      | some v =>
        { action := a, payload := v,
          raw_match := "RUN:" ++ a ++ "(" ++ p ++ ")",
          pos := some mpos } :: extractAllGo fuel nextPos rest
      | none => extractAllGo fuel nextPos rest

/-- Model of `extract_all_run_directives`. -/
def extract_all_run_directives (output : String) : List Directive :=
  extractAllGo (output.toList.length + 1) 0 output.toList

/-- Control characters removed by `sanitize_text`: NUL through
backspace, vertical tab, form feed, SO through US, and DEL (the class
`[\x00-\x08\x0b-\x0c\x0e-\x1f\x7f]` together with the NUL replace). -/
def isCtrlRemoved (c : Char) : Bool :=
  c.toNat ≤ 8 || c.toNat == 11 || c.toNat == 12 ||
    (14 ≤ c.toNat && c.toNat ≤ 31) || c.toNat == 127

/-- Control-character removal step. -/
def stripCtrl (cs : List Char) : List Char :=
  cs.filter (fun c => !(isCtrlRemoved c))

/-- State machine for `re.sub(r'<[^>]+>', '', text)`: outside any
candidate the pending buffer is empty; after an unmatched `<` the
(reversed) candidate accumulates until `>` closes it (dropping the
tag, unless the candidate is the bare `<` of `<>`, which the regex
cannot match) or the input ends (emitting the candidate verbatim —
no later `<` inside it can open a closing tag either). -/
def tagsGo : List Char → List Char → List Char
  | pend, [] => pend.reverse
  | pend, c :: rest =>
    if pend.isEmpty then
      if c == '<' then tagsGo [c] rest else c :: tagsGo [] rest
    else
      if c == '>' then
        if pend == ['<'] then '<' :: '>' :: tagsGo [] rest
        else tagsGo [] rest
      else tagsGo (c :: pend) rest

/-- HTML-tag stripping step. -/
def stripTags (cs : List Char) : List Char := tagsGo [] cs

/-- Modelled from the spec: the unescape-HTML-entities step calls the
standard library `html.unescape`, which is not part of the repository;
the model handles the basic named entities and the apostrophe
reference, and, like the library, returns the input unchanged when it
contains no ampersand. -/
def unescTail : List Char → List Char
  | [] => []
  | '&' :: 'l' :: 't' :: ';' :: r => '<' :: unescTail r
  | '&' :: 'g' :: 't' :: ';' :: r => '>' :: unescTail r
  | '&' :: 'a' :: 'm' :: 'p' :: ';' :: r => '&' :: unescTail r
  | '&' :: 'q' :: 'u' :: 'o' :: 't' :: ';' :: r => '"' :: unescTail r
  | '&' :: '#' :: '3' :: '9' :: ';' :: r => '\x27' :: unescTail r
  | c :: rest => c :: unescTail rest

/-- Ampersand test, Python `'&' in s`. -/
def hasAmp : List Char → Bool
  | [] => false
  | c :: rest => c == '&' || hasAmp rest

/-- Entity-unescaping step with the no-ampersand fast path of the
standard library. -/
def pyUnescape (cs : List Char) : List Char :=
  if hasAmp cs then unescTail cs else cs

/-- Leading whitespace run and remainder. -/
def wsSplit : List Char → List Char × List Char
  | [] => ([], [])
  | c :: rest =>
    if isPyWs c then
      let (a, b) := wsSplit rest
      (c :: a, b)
    else ([], c :: rest)

/-- Case-insensitive letter test against a lowercase letter. -/
def lowEq (c l : Char) : Bool := c.toLower == l

/-- Four characters spelling TOOL case-insensitively. -/
def isToolWord (c1 c2 c3 c4 : Char) : Bool :=
  lowEq c1 't' && lowEq c2 'o' && lowEq c3 'o' && lowEq c4 'l'

/-- Scan for `re.sub(r'TOOL\s*:', 'TOOL_ :', text, flags=IGNORECASE)`:
at a case-insensitive TOOL the following whitespace run is inspected;
a colon ends the match and emits the replacement, anything else emits
the candidate verbatim and rescans from the offending character (no
new match can start inside the emitted OOL-plus-whitespace).  Fuel
equals the input length at the entry point; the scanned list shrinks
at every step. -/
def tnGo : Nat → List Char → List Char
  | 0, cs => cs
  | fuel + 1, cs =>
    match cs with
    | c1 :: c2 :: c3 :: c4 :: rest =>
      if isToolWord c1 c2 c3 c4 then
        match wsSplit rest with
        | (ws, o :: r) =>
          if o == ':' then "TOOL_ :".toList ++ tnGo fuel r
          else c1 :: c2 :: c3 :: c4 :: (ws ++ tnGo fuel (o :: r))
        | (ws, []) => c1 :: c2 :: c3 :: c4 :: ws
      else c1 :: tnGo fuel (c2 :: c3 :: c4 :: rest)
    | cs => cs

/-- TOOL-colon neutralization step. -/
def toolNeutralize (cs : List Char) : List Char := tnGo cs.length cs

/-- Replacement for a run of `n` newlines under
`re.sub(r'\n{3,}', '\n\n', text)`. -/
def nlRepl (n : Nat) : List Char :=
  if n ≥ 3 then ['\n', '\n'] else List.replicate n '\n'

/-- Newline-run collapsing scan carrying the current run length. -/
def nlGo (n : Nat) : List Char → List Char
  | [] => nlRepl n
  | c :: rest =>
    if c == '\n' then nlGo (n + 1) rest
    else nlRepl n ++ (c :: nlGo 0 rest)

/-- Newline-collapsing step. -/
def nlCollapse (cs : List Char) : List Char := nlGo 0 cs

/-- Python `text.split('\n')` (always at least one piece). -/
def splitNl : List Char → List (List Char)
  | [] => [[]]
  | c :: rest =>
    if c == '\n' then [] :: splitNl rest
    else
      match splitNl rest with
      | l :: ls => (c :: l) :: ls
      | [] => [[c]]

/-- Python `line.split()` with no separator: whitespace-delimited
words, no empty pieces; `cur` carries the reversed current word. -/
def pySplitGo (cur : List Char) : List Char → List (List Char)
  | [] => if cur.isEmpty then [] else [cur.reverse]
  | c :: rest =>
    if isPyWs c then
      if cur.isEmpty then pySplitGo [] rest
      else cur.reverse :: pySplitGo [] rest
    else pySplitGo (c :: cur) rest

/-- Python `' '.join(words)`. -/
def joinSpace : List (List Char) → List Char
  | [] => []
  | [w] => w
  | w :: ws => w ++ ' ' :: joinSpace ws

/-- Python `'\n'.join(lines)`. -/
def joinNl : List (List Char) → List Char
  | [] => []
  | [l] => l
  | l :: ls => l ++ '\n' :: joinNl ls

/-- Python `str.strip()`: whitespace removed from both ends. -/
def pyStrip (cs : List Char) : List Char :=
  ((cs.dropWhile isPyWs).reverse.dropWhile isPyWs).reverse

/-- Model of `sanitize_text` on character lists: truncate, remove
control characters, strip tags, unescape entities, neutralize TOOL
colons, collapse newline runs, normalize whitespace per line, strip. -/
def sanitizeChars (maxLen : Nat) (cs : List Char) : List Char :=
  let u := stripCtrl (cs.take maxLen)
  let w := nlCollapse (toolNeutralize (pyUnescape (stripTags u)))
  pyStrip (joinNl ((splitNl w).map (fun l => joinSpace (pySplitGo [] l))))

/-- Model of `sanitize_text` (`api/security/filters.py`). -/
def sanitize_text (text : String) (maxLen : Nat) : String :=
  String.mk (sanitizeChars maxLen text.toList)

/-- Characters for which one sanitization pass is provably stable: no
ampersand, no tag opener, no colon, and any whitespace is a plain
space. -/
def cleanChar (c : Char) : Bool :=
  c != '&' && c != '<' && c != ':' && (!(isPyWs c) || c == ' ')

/-- Policy used by the repository tests,
`ToolPolicy(allowed_tools=["payment_tool"])` with the default
confirmation set. -/
def demoPolicy : ToolPolicy :=
  { allowed_tools := ["payment_tool"], require_user_confirm := ["payment_tool"] }

/-- The reason string produced by the allowlist gate. -/
def allowlistDenyReason (pol : ToolPolicy) (tool_name : String) : String :=
  "Tool \x27" ++ tool_name ++ "\x27 not in allowed list: " ++
    pyReprStrList pol.allowed_tools

/-- Specification predicate: the arguments carry a numeric `amount`
with `0 < amount ≤ 10000` (a Python bool is an int and hence numeric). -/
def paymentAmountOkSpec (args : PyDict) : Bool :=
  match dictGet args "amount" with
  | some v => isNumberLike v && decide (0 < amountVal v) &&
      decide (amountVal v ≤ 10000)
  | none => false

/-- Specification predicate: the `action` field is charge or refund. -/
def paymentActionOkSpec (args : PyDict) : Bool :=
  match dictGet args "action" with
  | some (Value.str s) => s == "charge" || s == "refund"
  | _ => false

/-- Specification predicate: `user_id` is a non-empty string. -/
def paymentUserOkSpec (args : PyDict) : Bool :=
  match dictGet args "user_id" with
  | some (Value.str u) => !(u == "")
  | _ => false

/-- Specification predicate: all three payment business rules hold. -/
def paymentArgsOkSpec (args : PyDict) : Bool :=
  paymentAmountOkSpec args && paymentActionOkSpec args && paymentUserOkSpec args

/-- Reason reported for a failing amount rule, by sub-rule order:
missing, non-numeric, non-positive, too large. -/
def amountFailMsgSpec (args : PyDict) : String :=
  match dictGet args "amount" with
  | none => "Missing required \x27amount\x27 parameter"
  | some Value.null => "Missing required \x27amount\x27 parameter"
  | some v =>
    if !(isNumberLike v) then "Invalid amount type: " ++ typeName v
    else if amountVal v ≤ 0 then "Amount must be positive: " ++ pyStrOf v
    else "Amount exceeds maximum (10000): " ++ pyStrOf v

/-- Reason reported for a failing action rule. -/
def actionFailMsgSpec (args : PyDict) : String :=
  match dictGet args "action" with
  | some (Value.str s) => "Invalid action: " ++ s
  | v => "Invalid action: " ++ pyStrOpt v

/-- Reason of the first failing payment rule in rule order
(amount, then action, then user id); `none` when all rules hold. -/
def paymentDenyReasonSpec (args : PyDict) : Option String :=
  if !(paymentAmountOkSpec args) then some (amountFailMsgSpec args)
  else if !(paymentActionOkSpec args) then some (actionFailMsgSpec args)
  else if !(paymentUserOkSpec args) then some "Missing or invalid user_id"
  else none

/-- Key checks succeed exactly on specification-acceptable keys. -/
theorem keyCheck_isNone (k : PyKey) : (keyCheck k).isNone = keyOkSpec k := by
  cases k with
  | str s =>
    simp only [keyCheck, keyOkSpec]
    split_ifs with h1 h2
    · simp [decide_eq_false (by omega : ¬ (s.length ≤ 50))]
    · simp_all [decide_eq_true (by omega : s.length ≤ 50)]
    · simp_all [decide_eq_true (by omega : s.length ≤ 50)]
  | other tn => simp [keyCheck, keyOkSpec]

/-- The item loop finds no over-long item exactly when all string
items are within the 500-character bound. -/
theorem firstLongItem_isNone (k : String) (xs : List Value) :
    (firstLongItem k xs).isNone = itemsWithinLimits xs := by
  induction xs with
  | nil => rfl
  | cons v rest ih =>
    cases v <;> simp [firstLongItem, itemsWithinLimits, ih]
    split_ifs <;> simp_all

mutual
/-- Value checks succeed exactly when the value is within limits and
carries no suspicious string, proved mutually with the entry loop. -/
theorem valueCheck_spec (action k : String) : (v : Value) →
    (valueCheck action k v).isNone = (valueWithinLimits v && valueNoSusp v)
  | .str s => by
    simp only [valueCheck, valueWithinLimits, valueNoSusp]
    split_ifs with h1 h2
    · simp [decide_eq_false (by omega : ¬ (s.length ≤ 5000))]
    · simp_all [decide_eq_true (by omega : s.length ≤ 5000)]
    · simp_all [decide_eq_true (by omega : s.length ≤ 5000)]
  | .int n => by simp [valueCheck, valueWithinLimits, valueNoSusp]
  | .float q => by simp [valueCheck, valueWithinLimits, valueNoSusp]
  | .bool b => by simp [valueCheck, valueWithinLimits, valueNoSusp]
  | .null => by simp [valueCheck, valueWithinLimits, valueNoSusp]
  | .other tn => by simp [valueCheck, valueWithinLimits, valueNoSusp]
  | .list xs => by
    have hf := firstLongItem_isNone k xs
    simp only [valueCheck, valueWithinLimits, valueNoSusp]
    cases h : firstLongItem k xs with
    | some m =>
      rw [h] at hf
      simp only [Option.isNone_some] at hf
      simp [← hf]
    | none =>
      rw [h] at hf
      simp only [Option.isNone_none] at hf
      split_ifs with hl <;> simp_all
  | .dict es => by
    have he := validateEntries_spec action es
    simp only [valueCheck, valueWithinLimits, valueNoSusp]
    by_cases hlen : es.length > 20
    · simp [if_pos hlen, decide_eq_false (by omega : ¬ (es.length ≤ 20))]
    · have hd := decide_eq_true (by omega : es.length ≤ 20)
      obtain ⟨h1, h2⟩ := he
      rw [if_neg hlen]
      cases hv : validateEntries action es with
      | mk b o =>
        rw [hv] at h1 h2
        cases b with
        | true =>
          cases o with
          | none => simp [hd, ← h1]
          | some m => simp at h2
        | false => simp [hd, Bool.and_assoc, ← h1]

/-- The entry loop succeeds exactly when every binding is acceptable,
and reports a message exactly on failure. -/
theorem validateEntries_spec (action : String) : (es : List (PyKey × Value)) →
    ((validateEntries action es).1 =
        (entriesWithinLimits es && entriesNoSusp es)) ∧
    ((validateEntries action es).2.isSome = !(validateEntries action es).1)
  | [] => by simp [validateEntries, entriesWithinLimits, entriesNoSusp]
  | (k, v) :: rest => by
    have hv := valueCheck_spec action (keyStr k) v
    have hr := validateEntries_spec action rest
    have hk := keyCheck_isNone k
    simp only [validateEntries, entriesWithinLimits, entriesNoSusp]
    cases hkc : keyCheck k with
    | some m =>
      rw [hkc] at hk
      simp only [Option.isNone_some] at hk
      simp [← hk]
    | none =>
      rw [hkc] at hk
      simp only [Option.isNone_none] at hk
      cases hvc : valueCheck action (keyStr k) v with
      | some m =>
        rw [hvc] at hv
        simp only [Option.isNone_some] at hv
        cases hw : valueWithinLimits v <;> cases hn : valueNoSusp v <;>
          simp_all
      | none =>
        rw [hvc] at hv
        simp only [Option.isNone_none] at hv
        replace hv := hv.symm
        simp only [Bool.and_eq_true] at hv
        obtain ⟨hw, hn⟩ := hv
        simp [← hk, hw, hn, hr.1, hr.2, Bool.and_assoc, Bool.and_left_comm]
end

/-- C4 (amended): validation succeeds exactly when the payload is
within the size and shape limits (with the key rule as the source
implements it, tolerating one trailing newline) and no string value
matches the suspicious-pattern set; on failure an error message is
always reported. -/
theorem validator_limits_amended (action : String) (es : PyDict) :
    ((validate_payload action (.dict es)).1 =
      (payloadWithinLimits es && payloadNoSuspicious es)) ∧
    ((validate_payload action (.dict es)).2.isSome =
      !((validate_payload action (.dict es)).1)) := by
  have he := validateEntries_spec action es
  simp only [validate_payload, payloadWithinLimits, payloadNoSuspicious]
  by_cases h : es.length > 20
  · constructor
    · simp [if_pos h, decide_eq_false (by omega : ¬ (es.length ≤ 20))]
    · simp [if_pos h]
  · rw [if_neg h]
    constructor
    · rw [he.1]
      simp [decide_eq_true (by omega : es.length ≤ 20)]
    · exact he.2

/-- C4 (counterexample to the claim as stated): a key with a trailing
newline violates the character-class rule yet validates, and a payload
within all limits with matching keys is still rejected when a string
value carries a suspicious pattern. -/
theorem validator_limits_counterexample :
    (keyCoreMatch "abc\n".toList = false ∧
     (validate_payload "a" (.dict [(.str "abc\n", .int 1)])).1 = true) ∧
    (payloadWithinLimits [(.str "x", .str "<script>alert(1)")] = true ∧
     keyCoreMatch "x".toList = true ∧
     (validate_payload "a"
        (.dict [(.str "x", .str "<script>alert(1)")])).1 = false) := by
  decide

/-- C9: payload validation is total (the recursion is structural on
the payload) and always reports either success without a message or
failure with a message; in particular a payload nested 50 mappings
deep validates successfully. -/
theorem validate_payload_total_shape :
    (∀ (action : String) (v : Value),
       validate_payload action v = (true, none) ∨
       ∃ m, validate_payload action v = (false, some m)) ∧
    validate_payload "a" (deepNest 50) = (true, none) := by
  constructor
  · intro action v
    cases v
    case dict es =>
      simp only [validate_payload]
      by_cases h : es.length > 20
      · right
        exact ⟨_, by rw [if_pos h]⟩
      · rw [if_neg h]
        have he := validateEntries_spec action es
        cases hv : validateEntries action es with
        | mk b o =>
          rw [hv] at he
          cases b with
          | true =>
            left
            have h2 := he.2
            simp only [Bool.not_true] at h2
            cases o with
            | none => rfl
            | some m => simp at h2
          | false =>
            right
            have h2 := he.2
            simp only [Bool.not_false] at h2
            cases o with
            | some m => exact ⟨m, rfl⟩
            | none => simp at h2
    all_goals exact Or.inr ⟨_, rfl⟩
  · decide

/-- Unpacking of the clean-character condition. -/
theorem cleanChar_spec {c : Char} (h : cleanChar c = true) :
    (c == '&') = false ∧ (c == '<') = false ∧ (c == ':') = false ∧
      (isPyWs c = false ∨ c = ' ') := by
  simp only [cleanChar, Bool.and_eq_true, bne_iff_ne, ne_eq, Bool.or_eq_true,
    Bool.not_eq_true] at h
  obtain ⟨⟨⟨h1, h2⟩, h3⟩, h4⟩ := h
  refine ⟨by simp [h1], by simp [h2], by simp [h3], ?_⟩
  rcases h4 with h4 | h4
  · exact Or.inl (by simpa using h4)
  · exact Or.inr (by simpa using h4)

/-- Tag stripping is the identity on text without a tag opener. -/
theorem stripTags_id (cs : List Char) (h : ∀ c ∈ cs, (c == '<') = false) :
    stripTags cs = cs := by
  unfold stripTags
  induction cs with
  | nil => rfl
  | cons c rest ih =>
    have hc := h c (by simp)
    simp only [tagsGo, List.isEmpty_nil, if_true, hc, Bool.false_eq_true,
      if_false]
    exact congrArg (c :: ·) (ih (fun d hd => h d (List.mem_cons_of_mem _ hd)))

/-- The ampersand scan is negative on ampersand-free text. -/
theorem hasAmp_false (cs : List Char) (h : ∀ c ∈ cs, (c == '&') = false) :
    hasAmp cs = false := by
  induction cs with
  | nil => rfl
  | cons c rest ih =>
    simp [hasAmp, h c (by simp), ih (fun d hd => h d (List.mem_cons_of_mem _ hd))]

/-- Entity unescaping is the identity on ampersand-free text. -/
theorem pyUnescape_id (cs : List Char) (h : ∀ c ∈ cs, (c == '&') = false) :
    pyUnescape cs = cs := by
  simp [pyUnescape, hasAmp_false cs h]

/-- The whitespace split is a decomposition of its input. -/
theorem wsSplit_append : ∀ cs : List Char, (wsSplit cs).1 ++ (wsSplit cs).2 = cs
  | [] => rfl
  | c :: rest => by
    by_cases h : isPyWs c = true
    · simp [wsSplit, h, wsSplit_append rest]
    · simp [wsSplit, h]

/-- TOOL neutralization is the identity on colon-free text, whatever
the fuel. -/
theorem tnGo_id (fuel : Nat) :
    ∀ cs : List Char, (∀ c ∈ cs, (c == ':') = false) → tnGo fuel cs = cs := by
  induction fuel with
  | zero => intro cs _; rfl
  | succ f ih =>
    intro cs h
    rcases cs with _ | ⟨c1, _ | ⟨c2, _ | ⟨c3, _ | ⟨c4, rest⟩⟩⟩⟩
    · rfl
    · rfl
    · rfl
    · rfl
    · show tnGo (f + 1) (c1 :: c2 :: c3 :: c4 :: rest) = _
      simp only [tnGo]
      by_cases ht : isToolWord c1 c2 c3 c4 = true
      · rw [if_pos ht]
        have hsp := wsSplit_append rest
        rcases hws : wsSplit rest with ⟨ws, other⟩
        rw [hws] at hsp
        simp only at hsp
        cases other with
        | nil =>
          simp only []
          simp only [List.append_nil] at hsp
          rw [hsp]
        | cons o r =>
          have hor : ∀ c ∈ o :: r, c ∈ c1 :: c2 :: c3 :: c4 :: rest := by
            intro c hc
            have : c ∈ rest := by
              rw [← hsp]
              exact List.mem_append_right _ hc
            simp [this]
          have ho : (o == ':') = false := h o (hor o (by simp))
          simp only [ho, Bool.false_eq_true, if_false]
          rw [ih (o :: r) (fun c hc => h c (hor c hc)), hsp]
      · rw [if_neg ht]
        exact congrArg (c1 :: ·)
          (ih _ (fun c hc => h c (List.mem_cons_of_mem _ hc)))

/-- Newline collapsing is the identity on newline-free text. -/
theorem nlCollapse_id (cs : List Char) (h : ∀ c ∈ cs, (c == '\n') = false) :
    nlCollapse cs = cs := by
  unfold nlCollapse
  induction cs with
  | nil => rfl
  | cons c rest ih =>
    simp only [nlGo, h c (by simp), Bool.false_eq_true, if_false]
    have : nlRepl 0 = [] := rfl
    rw [this]
    exact congrArg (c :: ·) (ih (fun d hd => h d (List.mem_cons_of_mem _ hd)))

/-- Newline-free text splits into one line. -/
theorem splitNl_single (cs : List Char) (h : ∀ c ∈ cs, (c == '\n') = false) :
    splitNl cs = [cs] := by
  induction cs with
  | nil => rfl
  | cons c rest ih =>
    simp only [splitNl, h c (by simp), Bool.false_eq_true, if_false]
    rw [ih (fun d hd => h d (List.mem_cons_of_mem _ hd))]

/-- Words produced by the whitespace splitter are non-empty and free
of whitespace, provided the carried current word is. -/
theorem pySplitGo_words :
    ∀ (cs cur : List Char), (∀ c ∈ cur, isPyWs c = false) →
      ∀ w ∈ pySplitGo cur cs, w ≠ [] ∧ ∀ c ∈ w, isPyWs c = false := by
  intro cs
  induction cs with
  | nil =>
    intro cur hcur w hw
    by_cases hemp : cur.isEmpty
    · simp [pySplitGo, hemp] at hw
    · simp only [pySplitGo, hemp, Bool.false_eq_true, if_false,
        List.mem_singleton] at hw
      subst hw
      constructor
      · simpa using fun h => hemp (by simp [h])
      · intro c hc
        exact hcur c (List.mem_reverse.mp hc)
  | cons c rest ih =>
    intro cur hcur w hw
    by_cases hws : isPyWs c = true
    · by_cases hemp : cur.isEmpty
      · simp only [pySplitGo, hws, if_true, hemp] at hw
        exact ih [] (by simp) w hw
      · simp only [pySplitGo, hws, if_true, hemp, Bool.false_eq_true,
          if_false, List.mem_cons] at hw
        rcases hw with hw | hw
        · subst hw
          constructor
          · simpa using fun h => hemp (by simp [h])
          · intro d hd
            exact hcur d (List.mem_reverse.mp hd)
        · exact ih [] (by simp) w hw
    · simp only [pySplitGo, hws, Bool.false_eq_true, if_false] at hw
      refine ih (c :: cur) ?_ w hw
      intro d hd
      rcases List.mem_cons.mp hd with hd | hd
      · subst hd
        simpa using hws
      · exact hcur d hd

/-- Characters of the split words come from the carried word or the
input. -/
theorem pySplitGo_mem :
    ∀ (cs cur : List Char) (w : List Char), w ∈ pySplitGo cur cs →
      ∀ c ∈ w, c ∈ cur ∨ c ∈ cs := by
  intro cs
  induction cs with
  | nil =>
    intro cur w hw c hc
    by_cases hemp : cur.isEmpty
    · simp [pySplitGo, hemp] at hw
    · simp only [pySplitGo, hemp, Bool.false_eq_true, if_false,
        List.mem_singleton] at hw
      subst hw
      exact Or.inl (List.mem_reverse.mp hc)
  | cons a rest ih =>
    intro cur w hw c hc
    by_cases hws : isPyWs a = true
    · by_cases hemp : cur.isEmpty
      · simp only [pySplitGo, hws, if_true, hemp] at hw
        rcases ih [] w hw c hc with h | h
        · simp at h
        · exact Or.inr (List.mem_cons_of_mem _ h)
      · simp only [pySplitGo, hws, if_true, hemp, Bool.false_eq_true,
          if_false, List.mem_cons] at hw
        rcases hw with hw | hw
        · subst hw
          exact Or.inl (List.mem_reverse.mp hc)
        · rcases ih [] w hw c hc with h | h
          · simp at h
          · exact Or.inr (List.mem_cons_of_mem _ h)
    · simp only [pySplitGo, hws, Bool.false_eq_true, if_false] at hw
      rcases ih (a :: cur) w hw c hc with h | h
      · rcases List.mem_cons.mp h with h | h
        · exact Or.inr (by simp [h])
        · exact Or.inl h
      · exact Or.inr (List.mem_cons_of_mem _ h)

/-- Characters of a space-join come from the words or are spaces. -/
theorem joinSpace_mem :
    ∀ (ws : List (List Char)) (c : Char), c ∈ joinSpace ws →
      (∃ w ∈ ws, c ∈ w) ∨ c = ' '
  | [], c, hc => by simp [joinSpace] at hc
  | [w], c, hc => Or.inl ⟨w, by simp, by simpa [joinSpace] using hc⟩
  | w :: x :: xs, c, hc => by
    simp only [joinSpace, List.mem_append, List.mem_cons] at hc
    rcases hc with hc | hc | hc
    · exact Or.inl ⟨w, by simp, hc⟩
    · exact Or.inr hc
    · rcases joinSpace_mem (x :: xs) c hc with ⟨w2, hw2, hcw⟩ | hsp
      · exact Or.inl ⟨w2, List.mem_cons_of_mem _ hw2, hcw⟩
      · exact Or.inr hsp

/-- Length of a space-join of a cons. -/
theorem joinSpace_len_cons (w : List Char) (ws : List (List Char)) :
    (joinSpace (w :: ws)).length ≤ w.length + 1 + (joinSpace ws).length := by
  cases ws with
  | nil => simp [joinSpace]
  | cons x xs => simp [joinSpace]; omega

/-- The normalized line is no longer than the carried word plus the
input. -/
theorem pySplitGo_join_len :
    ∀ (cs cur : List Char),
      (joinSpace (pySplitGo cur cs)).length ≤ cur.length + cs.length := by
  intro cs
  induction cs with
  | nil =>
    intro cur
    by_cases hemp : cur.isEmpty
    · simp [pySplitGo, hemp, joinSpace]
    · simp [pySplitGo, hemp, joinSpace]
  | cons c rest ih =>
    intro cur
    by_cases hws : isPyWs c = true
    · by_cases hemp : cur.isEmpty
      · simp only [pySplitGo, hws, if_true, hemp]
        have := ih []
        simp only [List.length_nil, Nat.zero_add] at this
        simp only [List.length_cons]
        omega
      · simp only [pySplitGo, hws, if_true, hemp, Bool.false_eq_true, if_false]
        have h1 := joinSpace_len_cons cur.reverse (pySplitGo [] rest)
        have h2 := ih []
        simp only [List.length_nil, Nat.zero_add] at h2
        simp only [List.length_cons, List.length_reverse] at h1 ⊢
        omega
    · simp only [pySplitGo, hws, Bool.false_eq_true, if_false]
      have := ih (c :: cur)
      simp only [List.length_cons] at this ⊢
      omega

/-- Splitting after prepending a whitespace-free word accumulates the
word into the carried buffer. -/
theorem pySplitGo_prepend :
    ∀ (w rest cur : List Char), (∀ c ∈ w, isPyWs c = false) →
      pySplitGo cur (w ++ rest) = pySplitGo (w.reverse ++ cur) rest
  | [], rest, cur, _ => by simp
  | c :: w, rest, cur, h => by
    have hc : isPyWs c = false := h c (by simp)
    show pySplitGo cur (c :: (w ++ rest)) = _
    simp only [pySplitGo, hc, Bool.false_eq_true, if_false]
    rw [pySplitGo_prepend w rest (c :: cur)
      (fun d hd => h d (List.mem_cons_of_mem _ hd))]
    simp

/-- Splitting a space-join of good words recovers the words. -/
theorem pySplit_joinSpace :
    ∀ words : List (List Char),
      (∀ w ∈ words, w ≠ [] ∧ ∀ c ∈ w, isPyWs c = false) →
      pySplitGo [] (joinSpace words) = words
  | [], _ => rfl
  | [w], h => by
    obtain ⟨hne, hws⟩ := h w (by simp)
    have : joinSpace [w] = w ++ [] := by simp [joinSpace]
    rw [this, pySplitGo_prepend w [] [] hws]
    simp only [List.append_nil, pySplitGo]
    have : w.reverse.isEmpty = false := by
      cases w with
      | nil => exact absurd rfl hne
      | cons a t => simp
    simp [this]
  | w :: x :: xs, h => by
    obtain ⟨hne, hws⟩ := h w (by simp)
    have hj : joinSpace (w :: x :: xs) = w ++ (' ' :: joinSpace (x :: xs)) := by
      simp [joinSpace]
    rw [hj, pySplitGo_prepend w _ [] hws]
    have hsp : isPyWs ' ' = true := rfl
    have hemp : (w.reverse ++ []).isEmpty = false := by
      cases w with
      | nil => exact absurd rfl hne
      | cons a t => simp
    simp only [pySplitGo, hsp, if_true, hemp, Bool.false_eq_true, if_false]
    rw [pySplit_joinSpace (x :: xs) (fun v hv => h v (List.mem_cons_of_mem _ hv))]
    simp

/-- A space-join of non-empty words is non-empty when the word list
is. -/
theorem joinSpace_ne_nil :
    ∀ words : List (List Char), words ≠ [] →
      (∀ w ∈ words, w ≠ []) → joinSpace words ≠ []
  | [], h, _ => absurd rfl h
  | [w], _, h => by simpa [joinSpace] using h w (by simp)
  | w :: x :: xs, _, h => by
    have := h w (by simp)
    simp only [joinSpace]
    intro hcontra
    rcases List.append_eq_nil.mp hcontra with ⟨h1, _⟩
    exact this h1

/-- A fixed point of `dropWhile` starting with a cons has a head that
fails the predicate. -/
theorem head_fails_of_dropWhile_fix {p : Char → Bool} {c : Char}
    {t : List Char} (h : List.dropWhile p (c :: t) = c :: t) : p c = false := by
  have := List.dropWhile_eq_self_iff.mp h (by simp)
  simpa using this

/-- The reversed space-join of good words starts with a
non-whitespace character, so trailing strip is the identity. -/
theorem joinSpace_rev_drop :
    ∀ words : List (List Char),
      (∀ w ∈ words, w ≠ [] ∧ ∀ c ∈ w, isPyWs c = false) →
      List.dropWhile isPyWs (joinSpace words).reverse = (joinSpace words).reverse
  | [], _ => rfl
  | [w], h => by
    obtain ⟨hne, hws⟩ := h w (by simp)
    have hj : joinSpace [w] = w := by simp [joinSpace]
    rw [hj]
    cases hrev : w.reverse with
    | nil => rfl
    | cons c t =>
      have hcw : c ∈ w := by
        have : c ∈ w.reverse := by simp [hrev]
        exact List.mem_reverse.mp this
      rw [List.dropWhile_cons, if_neg (by simp [hws c hcw])]
  | w :: x :: xs, h => by
    have hj : joinSpace (w :: x :: xs) = w ++ (' ' :: joinSpace (x :: xs)) := by
      simp [joinSpace]
    have hgood : ∀ v ∈ x :: xs, v ≠ [] ∧ ∀ c ∈ v, isPyWs c = false :=
      fun v hv => h v (List.mem_cons_of_mem _ hv)
    have hih := joinSpace_rev_drop (x :: xs) hgood
    have hnj : joinSpace (x :: xs) ≠ [] :=
      joinSpace_ne_nil (x :: xs) (by simp) (fun v hv => (hgood v hv).1)
    rw [hj]
    rw [List.reverse_append, List.reverse_cons, List.append_assoc]
    cases hrev : (joinSpace (x :: xs)).reverse with
    | nil => exact absurd (by simpa using congrArg List.reverse hrev) hnj
    | cons c t =>
      rw [hrev] at hih
      have hc := head_fails_of_dropWhile_fix hih
      rw [List.cons_append, List.dropWhile_cons, if_neg (by simp [hc])]

/-- Stripping is the identity on a space-join of good words. -/
theorem pyStrip_joinSpace
    (words : List (List Char))
    (h : ∀ w ∈ words, w ≠ [] ∧ ∀ c ∈ w, isPyWs c = false) :
    pyStrip (joinSpace words) = joinSpace words := by
  unfold pyStrip
  have hfront : (joinSpace words).dropWhile isPyWs = joinSpace words := by
    cases hw : words with
    | nil => rfl
    | cons w ws =>
      obtain ⟨hne, hws⟩ := h w (by simp [hw])
      obtain ⟨c, t, hcw⟩ : ∃ c t, w = c :: t := by
        cases w with
        | nil => exact absurd rfl hne
        | cons a b => exact ⟨a, b, rfl⟩
      subst hcw
      have hc : isPyWs c = false := hws c (by simp)
      cases ws with
      | nil => simp [joinSpace, List.dropWhile_cons, hc]
      | cons x xs =>
        show List.dropWhile isPyWs ((c :: t) ++ ' ' :: joinSpace (x :: xs)) = _
        rw [List.cons_append, List.dropWhile_cons,
          if_neg (by simp [hc])]
        simp [joinSpace]

  rw [hfront, joinSpace_rev_drop words h, List.reverse_reverse]

/-- One sanitization pass on clean input reduces to whitespace
normalization of the control-stripped truncation. -/
theorem sanitizeChars_clean (maxLen : Nat) (cs : List Char)
    (h : ∀ c ∈ cs, cleanChar c = true) :
    sanitizeChars maxLen cs =
      joinSpace (pySplitGo [] (stripCtrl (cs.take maxLen))) := by
  have hmemu : ∀ c ∈ stripCtrl (cs.take maxLen), cleanChar c = true := by
    intro c hc
    exact h c (List.take_subset _ _ (List.mem_of_mem_filter hc))
  have hlt : ∀ c ∈ stripCtrl (cs.take maxLen), (c == '<') = false :=
    fun c hc => (cleanChar_spec (hmemu c hc)).2.1
  have hamp : ∀ c ∈ stripCtrl (cs.take maxLen), (c == '&') = false :=
    fun c hc => (cleanChar_spec (hmemu c hc)).1
  have hcol : ∀ c ∈ stripCtrl (cs.take maxLen), (c == ':') = false :=
    fun c hc => (cleanChar_spec (hmemu c hc)).2.2.1
  have hnl : ∀ c ∈ stripCtrl (cs.take maxLen), (c == '\n') = false := by
    intro c hc
    rcases (cleanChar_spec (hmemu c hc)).2.2.2 with hw | hs
    · by_contra hx
      simp only [Bool.not_eq_false, beq_iff_eq] at hx
      subst hx
      simp [isPyWs] at hw
    · subst hs
      rfl
  show pyStrip (joinNl ((splitNl (nlCollapse (toolNeutralize (pyUnescape
      (stripTags (stripCtrl (cs.take maxLen))))))).map
        (fun l => joinSpace (pySplitGo [] l)))) = _
  rw [stripTags_id _ hlt, pyUnescape_id _ hamp]
  unfold toolNeutralize
  rw [tnGo_id _ _ hcol, nlCollapse_id _ hnl, splitNl_single _ hnl]
  simp only [List.map_cons, List.map_nil, joinNl]
  exact pyStrip_joinSpace _ (pySplitGo_words _ [] (by simp))

/-- C6 (counterexample): sanitization is not idempotent; a line of
blank space between newlines is blanked only by the first pass, so the
newline run collapses only on the second pass. -/
theorem sanitize_not_idempotent :
    sanitize_text (sanitize_text "a\n \n \nb" 2000) 2000 ≠
      sanitize_text "a\n \n \nb" 2000 := by
  decide

/-- C6 (amended): sanitization is idempotent on inputs with no
ampersand, no tag opener, no colon (hence no TOOL trigger) and only
plain spaces as whitespace. -/
theorem sanitize_idempotent_amended (text : String) (maxLen : Nat)
    (h : ∀ c ∈ text.toList, cleanChar c = true) :
    sanitize_text (sanitize_text text maxLen) maxLen =
      sanitize_text text maxLen := by
  have h1 := sanitizeChars_clean maxLen text.toList h
  have hst : sanitize_text text maxLen =
      String.mk (joinSpace (pySplitGo [] (stripCtrl (text.toList.take maxLen)))) := by
    rw [sanitize_text, h1]
  have hgood := pySplitGo_words (stripCtrl (text.toList.take maxLen)) []
    (by simp)
  have hvmem : ∀ c ∈ joinSpace (pySplitGo [] (stripCtrl (text.toList.take maxLen))),
      c ∈ stripCtrl (text.toList.take maxLen) ∨ c = ' ' := by
    intro c hc
    rcases joinSpace_mem _ c hc with ⟨w, hw, hcw⟩ | hsp
    · rcases pySplitGo_mem _ [] w hw c hcw with hx | hx
      · simp at hx
      · exact Or.inl hx
    · exact Or.inr hsp
  have hvclean : ∀ c ∈ joinSpace (pySplitGo [] (stripCtrl (text.toList.take maxLen))),
      cleanChar c = true := by
    intro c hc
    rcases hvmem c hc with hx | hx
    · exact h c (List.take_subset _ _ (List.mem_of_mem_filter hx))
    · subst hx
      rfl
  have hvnoctrl : ∀ c ∈ joinSpace (pySplitGo [] (stripCtrl (text.toList.take maxLen))),
      isCtrlRemoved c = false := by
    intro c hc
    rcases hvmem c hc with hx | hx
    · have := List.of_mem_filter hx
      simpa using this
    · subst hx
      rfl
  have hvlen : (joinSpace (pySplitGo [] (stripCtrl (text.toList.take maxLen)))).length ≤
      maxLen := by
    have h2 := pySplitGo_join_len (stripCtrl (text.toList.take maxLen)) []
    simp only [List.length_nil, Nat.zero_add] at h2
    have h3 : (stripCtrl (text.toList.take maxLen)).length ≤
        (text.toList.take maxLen).length := List.length_filter_le _ _
    have h4 : (text.toList.take maxLen).length ≤ maxLen := by
      simp [List.length_take]
    omega
  have h2 := sanitizeChars_clean maxLen
    (joinSpace (pySplitGo [] (stripCtrl (text.toList.take maxLen)))) hvclean
  have htake := List.take_of_length_le hvlen
  have hfilter : stripCtrl
      (joinSpace (pySplitGo [] (stripCtrl (text.toList.take maxLen)))) =
      joinSpace (pySplitGo [] (stripCtrl (text.toList.take maxLen))) := by
    unfold stripCtrl
    rw [List.filter_eq_self]
    intro c hc
    simp [hvnoctrl c hc]
  have hsplit := pySplit_joinSpace _ hgood
  rw [hst]
  show String.mk (sanitizeChars maxLen
      (joinSpace (pySplitGo [] (stripCtrl (text.toList.take maxLen))))) = _
  rw [h2, htake, hfilter, hsplit]

/-- Witness for the amended C6 at a concrete clean input. -/
theorem sanitize_idempotent_amended_witness :
    sanitize_text (sanitize_text "Hello   world" 2000) 2000 =
      sanitize_text "Hello   world" 2000 :=
  sanitize_idempotent_amended "Hello   world" 2000 (by decide)

/-- C7: the well-formed directive string round-trips through the
simple-form extractor into the action send_email and the expected
three-field payload mapping. -/
theorem run_directive_round_trip :
    parse_run_directive
        "RUN:send_email(\x7b\"to\":\"a@b.com\",\"subject\":\"s\",\"body\":\"b\"\x7d)" =
      some { action := "send_email",
             payload := .dict [(.str "to", .str "a@b.com"),
                               (.str "subject", .str "s"),
                               (.str "body", .str "b")],
             raw_match :=
               "RUN:send_email(\x7b\"to\":\"a@b.com\",\"subject\":\"s\",\"body\":\"b\"\x7d)",
             pos := none } := by
  rfl

/-- C8: a candidate directive whose payload fails JSON decoding makes
the single-directive extractor return none (the model is total, so no
error escapes), and the scanning extractor skips the malformed
candidate and still returns the later well-formed directive. -/
theorem malformed_directive_discarded :
    (∀ (output : String) (pos : Nat) (a p : String) (rest : List Char),
       searchRun 0 output.toList = some (pos, a, p, rest) →
       jsonLoads p = none →
       parse_run_directive output = none) ∧
    extract_all_run_directives
        "RUN:bad(\x7bnope\x7d) and RUN:update_status(\x7b\"resource_id\":\"r1\",\"status\":\"ok\"\x7d)" =
      [{ action := "update_status",
         payload := .dict [(.str "resource_id", .str "r1"),
                           (.str "status", .str "ok")],
         raw_match :=
           "RUN:update_status(\x7b\"resource_id\":\"r1\",\"status\":\"ok\"\x7d)",
         pos := some 20 }] := by
  constructor
  · intro output pos a p rest hs hj
    unfold parse_run_directive
    rw [hs]
    dsimp only
    rw [hj]
  · rfl

/-- Witness for C8 at a concrete malformed directive. -/
theorem malformed_directive_discarded_witness :
    parse_run_directive "RUN:x(\x7boops\x7d)" = none :=
  malformed_directive_discarded.1 "RUN:x(\x7boops\x7d)" 0 "x" "\x7boops\x7d" []
    rfl rfl

/-- Any action found in the `ALLOWED_ACTIONS` table is one of the five
known actions. -/
theorem lookup_allowed_cases (action : String) (r : List String)
    (h : lookupStr ActionRunner.ALLOWED_ACTIONS action = some r) :
    action = "send_email" ∨ action = "create_ticket" ∨
    action = "schedule_meeting" ∨ action = "update_status" ∨
    action = "send_notification" := by
  simp only [ActionRunner.ALLOWED_ACTIONS, lookupStr] at h
  split_ifs at h with h1 h2 h3 h4 h5
  · exact Or.inl (eq_of_beq h1).symm
  · exact Or.inr (Or.inl (eq_of_beq h2).symm)
  · exact Or.inr (Or.inr (Or.inl (eq_of_beq h3).symm))
  · exact Or.inr (Or.inr (Or.inr (Or.inl (eq_of_beq h4).symm)))
  · exact Or.inr (Or.inr (Or.inr (Or.inr (eq_of_beq h5).symm)))

/-- Lookup in a string-keyed association list fails exactly when the
key is absent from the first components. -/
theorem lookupStr_eq_none_iff {α : Type} (l : List (String × α)) (s : String) :
    lookupStr l s = none ↔ s ∉ l.map Prod.fst := by
  induction l with
  | nil => simp [lookupStr]
  | cons kv rest ih =>
    obtain ⟨k, v⟩ := kv
    by_cases hk : k = s
    · subst hk
      simp [lookupStr]
    · simp [lookupStr, hk, ih, Ne.symm hk]

/-- C1: for the action send_email with a payload containing all of the
required fields to, subject, body, the defended executor with
confirmed=false returns a pending_confirmation outcome with reason
user_confirmation_required echoing the payload back, and the identical
call with confirmed=true returns status executed. -/
theorem confirmation_gating_send_email (payload : PyDict)
    (h1 : hasKeyStr payload "to" = true)
    (h2 : hasKeyStr payload "subject" = true)
    (h3 : hasKeyStr payload "body" = true) :
    (ActionRunner.execute_defended "send_email" payload false).status =
        "pending_confirmation" ∧
    (ActionRunner.execute_defended "send_email" payload false).reason =
        some "user_confirmation_required" ∧
    (ActionRunner.execute_defended "send_email" payload false).payloadEcho =
        some payload ∧
    (ActionRunner.execute_defended "send_email" payload true).status =
        "executed" := by
  unfold ActionRunner.execute_defended
  simp [lookupStr, ActionRunner.ALLOWED_ACTIONS, ActionRunner.DANGEROUS_ACTIONS,
    ActionRunner.missingFields, h1, h2, h3]

/-- Witness for C1 at a concrete send_email payload. -/
theorem confirmation_gating_send_email_witness :
    (ActionRunner.execute_defended "send_email"
      [(.str "to", .str "a@b.com"), (.str "subject", .str "s"),
       (.str "body", .str "b")] false).status = "pending_confirmation" ∧
    (ActionRunner.execute_defended "send_email"
      [(.str "to", .str "a@b.com"), (.str "subject", .str "s"),
       (.str "body", .str "b")] false).reason =
        some "user_confirmation_required" ∧
    (ActionRunner.execute_defended "send_email"
      [(.str "to", .str "a@b.com"), (.str "subject", .str "s"),
       (.str "body", .str "b")] false).payloadEcho =
        some [(.str "to", .str "a@b.com"), (.str "subject", .str "s"),
              (.str "body", .str "b")] ∧
    (ActionRunner.execute_defended "send_email"
      [(.str "to", .str "a@b.com"), (.str "subject", .str "s"),
       (.str "body", .str "b")] true).status = "executed" :=
  confirmation_gating_send_email _ rfl rfl rfl

/-- C3: for every action outside the known-action set and every
payload, the defended executor blocks with reason action_not_allowed
while the vulnerable executor reports status executed. -/
theorem unknown_action_defended_blocked_vuln_executed
    (action : String) (payload : PyDict) (confirmed : Bool)
    (h : action ∉ ["send_email", "create_ticket", "schedule_meeting",
                   "update_status", "send_notification"]) :
    (ActionRunner.execute_defended action payload confirmed).status = "blocked" ∧
    (ActionRunner.execute_defended action payload confirmed).reason =
        some "action_not_allowed" ∧
    (ActionRunner.execute_vuln action payload).status = "executed" := by
  have hl : lookupStr ActionRunner.ALLOWED_ACTIONS action = none := by
    rw [lookupStr_eq_none_iff]
    simpa [ActionRunner.ALLOWED_ACTIONS] using h
  refine ⟨?_, ?_, ?_⟩ <;>
    first
      | (unfold ActionRunner.execute_defended; rw [hl])
      | (unfold ActionRunner.execute_vuln; split_ifs <;> rfl)

/-- Witness for C3 at a concrete unknown action. -/
theorem unknown_action_defended_blocked_vuln_executed_witness :
    (ActionRunner.execute_defended "evil_tool" [] false).status = "blocked" ∧
    (ActionRunner.execute_defended "evil_tool" [] false).reason =
        some "action_not_allowed" ∧
    (ActionRunner.execute_vuln "evil_tool" []).status = "executed" :=
  unknown_action_defended_blocked_vuln_executed "evil_tool" [] false (by decide)

/-- Reflexivity of the leading-segment test. -/
theorem leadsWith_refl (l : List Char) : leadsWith l l = true := by
  induction l with
  | nil => rfl
  | cons c rest ih => simp [leadsWith, ih]

/-- A string occurs as a substring at the end of any extension. -/
theorem hasSub_append_self (n pre : List Char) : hasSub n (pre ++ n) = true := by
  induction pre with
  | nil =>
    cases n with
    | nil => rfl
    | cons c rest => simp [hasSub, leadsWith_refl]
  | cons c rest ih => simp [hasSub, ih]

/-- String append distributes over `toList`. -/
theorem toList_append_eq (a b : String) :
    (a ++ b).toList = a.toList ++ b.toList := by
  cases a
  cases b
  rfl

/-- Substring test succeeds on a suffix occurrence. -/
theorem hasSubstr_append_self (n pre : String) :
    hasSubstr n (pre ++ n) = true := by
  unfold hasSubstr
  rw [toList_append_eq]
  exact hasSub_append_self _ _

/-- C2: a tool outside the allowlist is always denied with a reason
that spells out the allowlist contents, and allowlist membership alone
is not sufficient: an allowlisted tool is still denied by the
suspicious-argument scan, by the missing-confirmation gate, and by the
tool-specific validation; in particular `evil_tool` with empty
arguments and context is denied with the allowlist in the reason. -/
theorem allowlist_denial_necessary_not_sufficient
    (pol : ToolPolicy) (tool_name : String) (args ctx : PyDict)
    (h : pol.allowed_tools.contains tool_name = false) :
    (validate_tool_call pol tool_name args ctx =
       some (false, some (allowlistDenyReason pol tool_name)) ∧
     hasSubstr (pyReprStrList pol.allowed_tools)
       (allowlistDenyReason pol tool_name) = true) ∧
    (validate_tool_call demoPolicy "payment_tool"
       [(.str "q", .str "drop table users")]
       [(.str "user_confirmed", .bool true)]).map Prod.fst = some false ∧
    (validate_tool_call demoPolicy "payment_tool"
       [(.str "amount", .int 100), (.str "action", .str "charge"),
        (.str "user_id", .str "u1")] []).map Prod.fst = some false ∧
    (validate_tool_call demoPolicy "payment_tool" []
       [(.str "user_confirmed", .bool true)]).map Prod.fst = some false ∧
    validate_tool_call demoPolicy "evil_tool" [] [] =
      some (false, some
        "Tool \x27evil_tool\x27 not in allowed list: [\x27payment_tool\x27]" ) := by
  refine ⟨⟨?_, hasSubstr_append_self _ _⟩, rfl, rfl, rfl, rfl⟩
  unfold validate_tool_call allowlistDenyReason
  rw [h]
  rfl

/-- Witness for C2 at a concrete absent tool name. -/
theorem allowlist_denial_necessary_not_sufficient_witness :
    (validate_tool_call demoPolicy "some_other_tool" [] [] =
       some (false, some (allowlistDenyReason demoPolicy "some_other_tool")) ∧
     hasSubstr (pyReprStrList demoPolicy.allowed_tools)
       (allowlistDenyReason demoPolicy "some_other_tool") = true) ∧
    (validate_tool_call demoPolicy "payment_tool"
       [(.str "q", .str "drop table users")]
       [(.str "user_confirmed", .bool true)]).map Prod.fst = some false ∧
    (validate_tool_call demoPolicy "payment_tool"
       [(.str "amount", .int 100), (.str "action", .str "charge"),
        (.str "user_id", .str "u1")] []).map Prod.fst = some false ∧
    (validate_tool_call demoPolicy "payment_tool" []
       [(.str "user_confirmed", .bool true)]).map Prod.fst = some false ∧
    validate_tool_call demoPolicy "evil_tool" [] [] =
      some (false, some
        "Tool \x27evil_tool\x27 not in allowed list: [\x27payment_tool\x27]" ) :=
  allowlist_denial_necessary_not_sufficient demoPolicy "some_other_tool" [] [] rfl

/-- The amount block rejects exactly the amounts outside the
specification rule, reporting the first failing sub-rule. -/
theorem paymentAmountGate_eq (args : PyDict) :
    paymentAmountGate args =
      (if paymentAmountOkSpec args then none
       else some (amountFailMsgSpec args)) := by
  unfold paymentAmountGate paymentAmountOkSpec amountFailMsgSpec
  cases dictGet args "amount" with
  | none => rfl
  | some v =>
    cases v <;> simp [isNumberLike, amountVal] <;> split_ifs <;>
      (try simp_all [not_le, not_lt]) <;> (first | rfl | linarith)

/-- The action block rejects exactly the actions outside the
specification rule. -/
theorem paymentActionGate_eq (args : PyDict) :
    paymentActionGate args =
      (if paymentActionOkSpec args then none
       else some (actionFailMsgSpec args)) := by
  unfold paymentActionGate paymentActionOkSpec actionFailMsgSpec
  cases hac : dictGet args "action" with
  | none => rfl
  | some v => cases v <;> simp

/-- The user block rejects exactly the user ids outside the
specification rule. -/
theorem paymentUserGate_eq (args : PyDict) :
    paymentUserGate args =
      (if paymentUserOkSpec args then none
       else some "Missing or invalid user_id") := by
  unfold paymentUserGate paymentUserOkSpec
  cases hu : dictGet args "user_id" with
  | none => rfl
  | some v => cases v <;> simp

/-- The tool-specific validation of the payment tool succeeds exactly
when the three specification rules hold, and otherwise reports the
first failing rule in rule order. -/
theorem validate_tool_specific_payment (args : PyDict) :
    validate_tool_specific "payment_tool" args =
      (if paymentArgsOkSpec args then (true, none)
       else (false, paymentDenyReasonSpec args)) := by
  unfold validate_tool_specific
  rw [show (("payment_tool" == "payment_tool") = true) from rfl]
  rw [paymentAmountGate_eq, paymentActionGate_eq, paymentUserGate_eq]
  unfold paymentArgsOkSpec paymentDenyReasonSpec
  cases paymentAmountOkSpec args <;> cases paymentActionOkSpec args <;>
    cases paymentUserOkSpec args <;> simp

/-- C5: for the payment tool, when the tool is allowlisted, the
serialized arguments are clean of suspicious substrings and the context
carries user_confirmed=true, validation succeeds exactly when the
arguments satisfy the three payment rules (numeric amount in (0,10000],
action charge or refund, non-empty string user id), and otherwise the
denial reports the first failing rule in that order. -/
theorem payment_tool_validation_iff (pol : ToolPolicy) (args ctx : PyDict)
    (hallow : pol.allowed_tools.contains "payment_tool" = true)
    (hsusp : contains_suspicious_args args = some none)
    (hconf : dictGet ctx "user_confirmed" = some (Value.bool true)) :
    (validate_tool_call pol "payment_tool" args ctx = some (true, none) ↔
      paymentArgsOkSpec args = true) ∧
    (paymentArgsOkSpec args = false →
      validate_tool_call pol "payment_tool" args ctx =
        some (false, paymentDenyReasonSpec args)) := by
  have hv : validate_tool_call pol "payment_tool" args ctx =
      (if paymentArgsOkSpec args then some (true, none)
       else some (false, paymentDenyReasonSpec args)) := by
    unfold validate_tool_call
    rw [hallow, hsusp, hconf, validate_tool_specific_payment]
    cases h : paymentArgsOkSpec args <;> simp [h, pyTruthy]
  rw [hv]
  cases h : paymentArgsOkSpec args <;> simp [h]

/-- Witness for C5 at a concrete valid payment call. -/
theorem payment_tool_validation_iff_witness :
    (validate_tool_call demoPolicy "payment_tool"
       [(.str "amount", .int 100), (.str "action", .str "charge"),
        (.str "user_id", .str "u1")]
       [(.str "user_confirmed", .bool true)] = some (true, none) ↔
      paymentArgsOkSpec
        [(.str "amount", .int 100), (.str "action", .str "charge"),
         (.str "user_id", .str "u1")] = true) ∧
    (paymentArgsOkSpec
        [(.str "amount", .int 100), (.str "action", .str "charge"),
         (.str "user_id", .str "u1")] = false →
      validate_tool_call demoPolicy "payment_tool"
        [(.str "amount", .int 100), (.str "action", .str "charge"),
         (.str "user_id", .str "u1")]
        [(.str "user_confirmed", .bool true)] =
          some (false, paymentDenyReasonSpec
            [(.str "amount", .int 100), (.str "action", .str "charge"),
             (.str "user_id", .str "u1")])) :=
  payment_tool_validation_iff demoPolicy _ _ rfl rfl rfl

/-- C10: the defended executor always reports one of the three statuses
blocked, pending_confirmation or executed; the internal-error fallback
branch is unreachable. -/
theorem execute_defended_status_closed
    (action : String) (payload : PyDict) (confirmed : Bool) :
    (ActionRunner.execute_defended action payload confirmed).status = "blocked" ∨
    (ActionRunner.execute_defended action payload confirmed).status =
        "pending_confirmation" ∨
    (ActionRunner.execute_defended action payload confirmed).status =
        "executed" := by
  unfold ActionRunner.execute_defended
  cases h : lookupStr ActionRunner.ALLOWED_ACTIONS action with
  | none => exact Or.inl rfl
  | some required =>
    dsimp only
    split_ifs with hm hc he1 he2 he3 he4 he5 <;>
      first
        | exact Or.inl rfl
        | exact Or.inr (Or.inl rfl)
        | exact Or.inr (Or.inr rfl)
        | (rcases lookup_allowed_cases action required h with h1 | h1 | h1 | h1 | h1 <;>
             subst h1 <;> simp_all)
